import Mathlib

/-!
Shallow embedding of `sac.py` (minimalRL Soft Actor-Critic) and proofs of the
specification claims about it.

Conventions of the embedding:
* Python floats are modelled as real numbers (`ℝ`).
* The replay buffer's `collections.deque(maxlen=buffer_limit)` is a list with
  the oldest element at the head.
* `random.sample(population, n)` is modelled by `pySample`: the random number
  generator's choice is passed in as a list of indices; CPython raises
  `ValueError` when `n > len(population)`, modelled by returning `none`.
* Torch tensors of shape `(B, 1)` are modelled as `List ℝ` (one entry per
  batch row); elementwise tensor arithmetic becomes per-row arithmetic.
* `torch.distributions.Normal(m, s).log_prob x` is
  `-((x - m)^2 / (2 s^2)) - log s - log (sqrt (2 π))` (`normalLogPdf`).
* The Adam optimizer update of `train_pi` is an abstract parameter `piStep`
  that receives the loss as a function of the policy parameters; the critics
  are not handed to it, exactly as `pi.optimizer.step()` touches only the
  policy parameters.
-/

namespace Sac

/-! ### Hyperparameters (sac.py lines 10-17) -/

def alpha : ℝ := 0.05
def gamma : ℝ := 0.98
def batch_size : Nat := 32
def buffer_limit : Nat := 50000
def tau : ℝ := 0.01

/-! ### Transition tuples stored in the buffer (sac.py line 145) -/

structure Transition where
  s : Fin 3 → ℝ
  a : ℝ
  r : ℝ
  s_prime : Fin 3 → ℝ
  done : Bool

/-! ### ReplayBuffer (sac.py lines 19-44) -/

structure ReplayBuffer (α : Type) where
  buffer : List α

def ReplayBuffer.empty {α : Type} : ReplayBuffer α := ⟨[]⟩

/-- Python `put`: `deque.append` with `maxlen = buffer_limit`; appending to a full
deque discards the element at the opposite (oldest) end. -/
def ReplayBuffer.put {α : Type} (rb : ReplayBuffer α) (t : α) : ReplayBuffer α :=
  if rb.buffer.length < buffer_limit then ⟨rb.buffer ++ [t]⟩
  else ⟨rb.buffer.tail ++ [t]⟩

def ReplayBuffer.size {α : Type} (rb : ReplayBuffer α) : Nat :=
  rb.buffer.length

def ReplayBuffer.ofList {α : Type} (ts : List α) : ReplayBuffer α :=
  ts.foldl ReplayBuffer.put ReplayBuffer.empty

/-- Model of `random.sample(population, n)`: the generator's choice of positions is the
argument `idxs` (distinct in-range indices of length `n`, as CPython's
sampling-without-replacement algorithm produces); `ValueError` when
`n > len(population)` is modelled as `none`. -/
def pySample {α : Type} (population : List α) (n : Nat) (idxs : List Nat) :
    Option (List α) :=
  if n ≤ population.length ∧ idxs.length = n ∧ idxs.Nodup ∧
      ∀ i ∈ idxs, i < population.length then
    some (idxs.filterMap fun i => population[i]?)
  else none

/-- The done mask built in `ReplayBuffer.sample` (line 36):
`0.0 if done else 1.0`. -/
def doneMask (done : Bool) : ℝ := if done then 0.0 else 1.0

/-- Python `ReplayBuffer.sample` (lines 26-41): draw `n` transitions without
replacement and reorganize them into five parallel batches
`(s, a, r, s_prime, done_mask)`. -/
def ReplayBuffer.sample (rb : ReplayBuffer Transition) (n : Nat) (idxs : List Nat) :
    Option (List (Fin 3 → ℝ) × List ℝ × List ℝ × List (Fin 3 → ℝ) × List ℝ) :=
  (pySample rb.buffer n idxs).map fun mini_batch =>
    (mini_batch.map Transition.s,
     mini_batch.map Transition.a,
     mini_batch.map Transition.r,
     mini_batch.map Transition.s_prime,
     mini_batch.map fun t => doneMask t.done)

/-! ### Activations and the normal log-density (torch substrate) -/

/-- Torch `F.relu`. -/
noncomputable def relu (x : ℝ) : ℝ := max x 0

/-- Torch `F.softplus`. -/
noncomputable def softplus (x : ℝ) : ℝ := Real.log (1 + Real.exp x)

/-- Torch `torch.distributions.Normal(m, s).log_prob x`. -/
noncomputable def normalLogPdf (m s x : ℝ) : ℝ :=
  -((x - m) ^ 2 / (2 * s ^ 2)) - Real.log s - Real.log (Real.sqrt (2 * Real.pi))

/-! ### PolicyNet (sac.py lines 46-65): fc1 : 3 → 128, fc_mu : 128 → 1,
fc_std : 128 → 1.  The scalar output heads are stored as weight vectors plus a
bias scalar. -/

structure PolicyNet where
  fc1_w : Fin 128 → Fin 3 → ℝ
  fc1_b : Fin 128 → ℝ
  fc_mu_w : Fin 128 → ℝ
  fc_mu_b : ℝ
  fc_std_w : Fin 128 → ℝ
  fc_std_b : ℝ

/-- Python `PolicyNet.forward` (lines 54-65).  The standard-normal noise drawn at
line 62 is the argument `noise`; the returned pair is `(action, log_prob)`. -/
noncomputable def PolicyNet.forward (p : PolicyNet) (x : Fin 3 → ℝ) (noise : ℝ) :
    ℝ × ℝ :=
  let h : Fin 128 → ℝ := fun i => relu ((∑ j, p.fc1_w i j * x j) + p.fc1_b i)
  let mu : ℝ := (∑ i, p.fc_mu_w i * h i) + p.fc_mu_b
  let std : ℝ := softplus ((∑ i, p.fc_std_w i * h i) + p.fc_std_b)
  let log_prob : ℝ := normalLogPdf 0 1 noise
  let action : ℝ := 2.0 * Real.tanh (mu + std * noise)
  (action, log_prob)

/-! ### QNet (sac.py lines 70-85): fc_s : 3 → 64, fc_a : 1 → 64,
fc_cat : 128 → 32, fc_out : 32 → 1.  The concatenation along the feature axis
is `Fin.append` at type `Fin (64 + 64)`. -/

structure QNet where
  fc_s_w : Fin 64 → Fin 3 → ℝ
  fc_s_b : Fin 64 → ℝ
  fc_a_w : Fin 64 → ℝ
  fc_a_b : Fin 64 → ℝ
  fc_cat_w : Fin 32 → Fin (64 + 64) → ℝ
  fc_cat_b : Fin 32 → ℝ
  fc_out_w : Fin 32 → ℝ
  fc_out_b : ℝ

/-- Python `QNet.forward` (lines 79-85). -/
noncomputable def QNet.forward (q : QNet) (x : Fin 3 → ℝ) (a : ℝ) : ℝ :=
  let h1 : Fin 64 → ℝ := fun i => relu ((∑ j, q.fc_s_w i j * x j) + q.fc_s_b i)
  let h2 : Fin 64 → ℝ := fun i => relu (q.fc_a_w i * a + q.fc_a_b i)
  let cat : Fin (64 + 64) → ℝ := Fin.append h1 h2
  let hc : Fin 32 → ℝ := fun i => relu ((∑ j, q.fc_cat_w i j * cat j) + q.fc_cat_b i)
  (∑ i, q.fc_out_w i * hc i) + q.fc_out_b

/-! ### calc_target (sac.py lines 87-98), per batch row.  The mask batch
produced by `sample` enters as `doneMask tr.done`; `zs` is the batch of
standard-normal noise drawn inside `pi(s_prime)`. -/

/-- One row of `calc_target`: `r + gamma * done * (min_q + entropy)` with
`(a_prime, log_prob) = pi(s_prime)`, `entropy = -alpha * log_prob`,
`min_q = min (q1(s_prime, a_prime)) (q2(s_prime, a_prime))`. -/
noncomputable def calcTargetRow (pi : PolicyNet) (q1 q2 : QNet)
    (tr : Transition) (z : ℝ) : ℝ :=
  let a_prime : ℝ := (pi.forward tr.s_prime z).1
  let log_prob : ℝ := (pi.forward tr.s_prime z).2
  let entropy : ℝ := -alpha * log_prob
  let min_q : ℝ := min (q1.forward tr.s_prime a_prime) (q2.forward tr.s_prime a_prime)
  tr.r + gamma * doneMask tr.done * (min_q + entropy)

/-- Python `calc_target` on a whole mini-batch (all tensor operations at lines 90-96
are elementwise per batch row). -/
noncomputable def calc_target (pi : PolicyNet) (q1 q2 : QNet)
    (mini_batch : List Transition) (zs : List ℝ) : List ℝ :=
  List.zipWith (calcTargetRow pi q1 q2) mini_batch zs

/-! ### train_pi (sac.py lines 107-119). -/

/-- One row of the actor loss (lines 109-116):
`(a_prime, log_prob) = pi(s_prime)` — note: the policy is evaluated at
`s_prime`, while the online critics are evaluated at `(s, a_prime)` — and
`loss = -min_q - entropy`. -/
noncomputable def actorLossRow (pi : PolicyNet) (q1 q2 : QNet)
    (tr : Transition) (z : ℝ) : ℝ :=
  let a_prime : ℝ := (pi.forward tr.s_prime z).1
  let log_prob : ℝ := (pi.forward tr.s_prime z).2
  let entropy : ℝ := -alpha * log_prob
  let min_q : ℝ := min (q1.forward tr.s a_prime) (q2.forward tr.s a_prime)
  (-min_q) - entropy

/-- Mean `loss.mean()` over the mini-batch (line 118). -/
noncomputable def actorLossMean (pi : PolicyNet) (q1 q2 : QNet)
    (mini_batch : List Transition) (zs : List ℝ) : ℝ :=
  (List.zipWith (actorLossRow pi q1 q2) mini_batch zs).sum / mini_batch.length

/-- The mutable state `train_pi` acts on: the policy and the two online
critics (the networks whose parameters exist at lines 107-119). -/
structure SacState where
  pi : PolicyNet
  q1 : QNet
  q2 : QNet

/-- Python `train_pi` (lines 107-119).  Here `piStep` abstracts
`pi.optimizer.zero_grad(); loss.mean().backward(); pi.optimizer.step()`: it
receives the mean actor loss as a function of the policy parameters and
produces updated policy parameters.  Only the `pi` component of the state is
replaced, because only `pi.optimizer.step()` is called. -/
noncomputable def train_pi (piStep : (PolicyNet → ℝ) → PolicyNet → PolicyNet)
    (st : SacState) (mini_batch : List Transition) (zs : List ℝ) : SacState :=
  { st with
    pi := piStep (fun p => actorLossMean p st.q1 st.q2 mini_batch zs) st.pi }

/-! ### soft_update (sac.py lines 121-123).  A network's parameter tensors are
flattened to a `List ℝ`; `zip` pairs target and online parameters. -/

/-- The parameter blend of `soft_update` at an explicit rate `t`
(`param_target * (1.0 - t) + param * t`, elementwise over the zipped
parameter lists). -/
def softUpdateWith (t : ℝ) (net net_target : List ℝ) : List ℝ :=
  List.zipWith (fun param_target param => param_target * (1.0 - t) + param * t)
    net_target net

/-- Python `soft_update(net, net_target)` at the configured rate `tau`. -/
def soft_update (net net_target : List ℝ) : List ℝ :=
  softUpdateWith tau net net_target

/-! ### Helper lemmas about the buffer -/

lemma put_size_le {α : Type} (rb : ReplayBuffer α) (t : α)
    (h : rb.size ≤ buffer_limit) : (rb.put t).size ≤ buffer_limit := by
  unfold ReplayBuffer.put ReplayBuffer.size buffer_limit at *
  split
  · next hlt => simp only [List.length_append, List.length_cons, List.length_nil]; omega
  · next hge =>
    simp only [List.length_append, List.length_tail, List.length_cons, List.length_nil]
    omega

lemma foldl_put_size_le {α : Type} (ts : List α) (rb : ReplayBuffer α)
    (h : rb.size ≤ buffer_limit) :
    (ts.foldl ReplayBuffer.put rb).size ≤ buffer_limit := by
  induction ts generalizing rb with
  | nil => simpa using h
  | cons t ts ih => exact ih _ (put_size_le _ _ h)

lemma filterMap_getElem {α : Type} (l : List α) (idxs : List Nat)
    (hb : ∀ i ∈ idxs, i < l.length) :
    (idxs.filterMap fun i => l[i]?) =
      (idxs.pmap (fun i h => (⟨i, h⟩ : Fin l.length)) hb).map l.get := by
  induction idxs with
  | nil => rfl
  | cons j js ih =>
    have hj : j < l.length := hb j (by simp)
    have hrest : ∀ i ∈ js, i < l.length := fun i hi => hb i (by simp [hi])
    simp [List.filterMap_cons, List.getElem?_eq_getElem hj, List.pmap, ih hrest]

/-! ### Claim theorems about the buffer -/

/-- C2: for every sequence of `put` calls, `size()` never exceeds the capacity
50000, and when the buffer is at capacity the next `put` evicts exactly the
oldest stored transition (FIFO ring-buffer semantics). -/
theorem put_ring_buffer {α : Type} (ts : List α) (rb : ReplayBuffer α) (t : α)
    (h : rb.size = buffer_limit) :
    (ReplayBuffer.ofList ts).size ≤ buffer_limit ∧
    (rb.put t).buffer = rb.buffer.tail ++ [t] ∧
    (rb.put t).size = buffer_limit := by
  refine ⟨foldl_put_size_le ts _ (by simp [ReplayBuffer.empty, ReplayBuffer.size]), ?_, ?_⟩
  · unfold ReplayBuffer.put
    rw [if_neg]
    unfold ReplayBuffer.size at h
    omega
  · unfold ReplayBuffer.put
    rw [if_neg]
    · unfold ReplayBuffer.size at *
      simp only [List.length_append, List.length_tail, List.length_cons, List.length_nil]
      unfold buffer_limit at *
      omega
    · unfold ReplayBuffer.size at h
      omega

/-- Witness for C2 at a concrete buffer of size exactly 50000. -/
theorem put_ring_buffer_witness :
    (ReplayBuffer.mk (List.replicate 50000 (0 : Nat))).size = buffer_limit ∧
    ((ReplayBuffer.ofList [1, 2, 3]).size ≤ buffer_limit ∧
     ((ReplayBuffer.mk (List.replicate 50000 (0 : Nat))).put 7).buffer =
        (List.replicate 50000 (0 : Nat)).tail ++ [7] ∧
     ((ReplayBuffer.mk (List.replicate 50000 (0 : Nat))).put 7).size = buffer_limit) := by
  have h : (ReplayBuffer.mk (List.replicate 50000 (0 : Nat))).size = buffer_limit := by
    show (List.replicate 50000 (0 : Nat)).length = buffer_limit
    rw [List.length_replicate]
    rfl
  exact ⟨h, put_ring_buffer [1, 2, 3] _ 7 h⟩

/-- C6: for `n ≤ size()`, `sample(n)` (given the distinct in-range positions
chosen by the random generator) succeeds and returns exactly `n` rows, each a
transition actually stored in the buffer, drawn at pairwise distinct
positions (without replacement), reorganized into the five parallel
batches. -/
theorem sample_without_replacement (rb : ReplayBuffer Transition) (n : Nat)
    (idxs : List Nat) (hn : n ≤ rb.buffer.length) (hlen : idxs.length = n)
    (hnd : idxs.Nodup) (hb : ∀ i ∈ idxs, i < rb.buffer.length) :
    ∃ mini_batch : List Transition,
      pySample rb.buffer n idxs = some mini_batch ∧
      mini_batch.length = n ∧
      (∀ x ∈ mini_batch, x ∈ rb.buffer) ∧
      (∃ picks : List (Fin rb.buffer.length), picks.Nodup ∧
        mini_batch = picks.map rb.buffer.get) ∧
      rb.sample n idxs = some
        (mini_batch.map Transition.s, mini_batch.map Transition.a,
         mini_batch.map Transition.r, mini_batch.map Transition.s_prime,
         mini_batch.map fun t => doneMask t.done) := by
  have hsome : pySample rb.buffer n idxs =
      some (idxs.filterMap fun i => rb.buffer[i]?) := by
    unfold pySample
    rw [if_pos ⟨hn, hlen, hnd, hb⟩]
  refine ⟨idxs.filterMap fun i => rb.buffer[i]?, hsome, ?_, ?_, ?_, ?_⟩
  · rw [filterMap_getElem _ _ hb]
    simp [hlen]
  · intro x hx
    rw [filterMap_getElem _ _ hb] at hx
    obtain ⟨i, -, rfl⟩ := List.mem_map.mp hx
    exact rb.buffer.get_mem _ _
  · refine ⟨idxs.pmap (fun i h => (⟨i, h⟩ : Fin rb.buffer.length)) hb, ?_, ?_⟩
    · exact hnd.pmap fun a _ b _ hab => by simpa using congrArg Fin.val hab
    · exact filterMap_getElem _ _ hb
  · unfold ReplayBuffer.sample
    rw [hsome]
    rfl

/-- Witness for C6 on a concrete two-element buffer, sampling both rows. -/
theorem sample_without_replacement_witness :
    2 ≤ (ReplayBuffer.mk [(⟨fun _ => 0, 0, 0, fun _ => 0, false⟩ : Transition),
          ⟨fun _ => 1, 1, 1, fun _ => 1, true⟩]).buffer.length ∧
    ([1, 0] : List Nat).length = 2 ∧
    ([1, 0] : List Nat).Nodup ∧
    (∀ i ∈ ([1, 0] : List Nat),
      i < (ReplayBuffer.mk [(⟨fun _ => 0, 0, 0, fun _ => 0, false⟩ : Transition),
            ⟨fun _ => 1, 1, 1, fun _ => 1, true⟩]).buffer.length) ∧
    ∃ mini_batch : List Transition,
      pySample (ReplayBuffer.mk [(⟨fun _ => 0, 0, 0, fun _ => 0, false⟩ : Transition),
          ⟨fun _ => 1, 1, 1, fun _ => 1, true⟩]).buffer 2 [1, 0] = some mini_batch ∧
      mini_batch.length = 2 ∧
      (∀ x ∈ mini_batch,
        x ∈ (ReplayBuffer.mk [(⟨fun _ => 0, 0, 0, fun _ => 0, false⟩ : Transition),
              ⟨fun _ => 1, 1, 1, fun _ => 1, true⟩]).buffer) ∧
      (∃ picks : List (Fin (ReplayBuffer.mk
            [(⟨fun _ => 0, 0, 0, fun _ => 0, false⟩ : Transition),
             ⟨fun _ => 1, 1, 1, fun _ => 1, true⟩]).buffer.length),
        picks.Nodup ∧
        mini_batch = picks.map (ReplayBuffer.mk
            [(⟨fun _ => 0, 0, 0, fun _ => 0, false⟩ : Transition),
             ⟨fun _ => 1, 1, 1, fun _ => 1, true⟩]).buffer.get) ∧
      (ReplayBuffer.mk [(⟨fun _ => 0, 0, 0, fun _ => 0, false⟩ : Transition),
          ⟨fun _ => 1, 1, 1, fun _ => 1, true⟩]).sample 2 [1, 0] = some
        (mini_batch.map Transition.s, mini_batch.map Transition.a,
         mini_batch.map Transition.r, mini_batch.map Transition.s_prime,
         mini_batch.map fun t => doneMask t.done) := by
  have h1 : 2 ≤ (ReplayBuffer.mk [(⟨fun _ => 0, 0, 0, fun _ => 0, false⟩ : Transition),
      ⟨fun _ => 1, 1, 1, fun _ => 1, true⟩]).buffer.length := by simp
  have h2 : ([1, 0] : List Nat).length = 2 := by simp
  have h3 : ([1, 0] : List Nat).Nodup := by decide
  have h4 : ∀ i ∈ ([1, 0] : List Nat),
      i < (ReplayBuffer.mk [(⟨fun _ => 0, 0, 0, fun _ => 0, false⟩ : Transition),
            ⟨fun _ => 1, 1, 1, fun _ => 1, true⟩]).buffer.length := by
    intro i hi
    simp only [List.mem_cons, List.mem_singleton] at hi
    rcases hi with rfl | rfl | h
    · simp
    · simp
    · simp at h
  exact ⟨h1, h2, h3, h4, sample_without_replacement _ 2 [1, 0] h1 h2 h3 h4⟩

/-- C9: sampling more elements than the buffer holds fails fast
(`random.sample` raises `ValueError`), for every random choice. -/
theorem sample_gt_size_fails (rb : ReplayBuffer Transition) (n : Nat)
    (idxs : List Nat) (h : n > rb.size) : rb.sample n idxs = none := by
  unfold ReplayBuffer.sample pySample
  rw [if_neg]
  · rfl
  · rintro ⟨h1, -⟩
    unfold ReplayBuffer.size at h
    omega

/-- Witness for C9: sampling one element from the empty buffer fails. -/
theorem sample_gt_size_fails_witness :
    1 > (ReplayBuffer.empty : ReplayBuffer Transition).size ∧
    (ReplayBuffer.empty : ReplayBuffer Transition).sample 1 [0] = none := by
  have h : 1 > (ReplayBuffer.empty : ReplayBuffer Transition).size := by
    simp [ReplayBuffer.empty, ReplayBuffer.size]
  exact ⟨h, sample_gt_size_fails _ 1 [0] h⟩

/-! ### Soft update (C4), actor step frame (C8), log-prob claims (C5, C10),
terminal targets (C3) -/

lemma zipWith_fst_of_length_eq {α β : Type} (l1 : List α) (l2 : List β)
    (h : l1.length = l2.length) : List.zipWith (fun a _ => a) l1 l2 = l1 := by
  induction l1 generalizing l2 with
  | nil => rfl
  | cons a l ih =>
    cases l2 with
    | nil => simp at h
    | cons b l' =>
      simp only [List.zipWith_cons_cons, List.cons.injEq, true_and]
      exact ih l' (by simpa using h)

lemma zipWith_snd_of_length_eq {α β : Type} (l1 : List α) (l2 : List β)
    (h : l1.length = l2.length) : List.zipWith (fun _ b => b) l1 l2 = l2 := by
  induction l1 generalizing l2 with
  | nil => cases l2 with
    | nil => rfl
    | cons b l' => simp at h
  | cons a l ih =>
    cases l2 with
    | nil => simp at h
    | cons b l' =>
      simp only [List.zipWith_cons_cons, List.cons.injEq, true_and]
      exact ih l' (by simpa using h)

/-- C4: one `soft_update` call sets every target parameter elementwise to
`target * (1 - tau) + online * tau`; at rate `1.0` the target becomes exactly
the online parameter, and at rate `0.0` it is unchanged. -/
theorem soft_update_formula (net net_target : List ℝ)
    (h : net.length = net_target.length) (i : Nat) (hi : i < net.length) :
    (soft_update net net_target).getD i 0 =
      net_target.getD i 0 * (1 - tau) + net.getD i 0 * tau ∧
    softUpdateWith 1 net net_target = net ∧
    softUpdateWith 0 net net_target = net_target := by
  refine ⟨?_, ?_, ?_⟩
  · have hti : i < net_target.length := h ▸ hi
    have hzi : i < (soft_update net net_target).length := by
      simp [soft_update, softUpdateWith, List.length_zipWith]
      omega
    rw [List.getD_eq_getElem _ _ hzi, List.getD_eq_getElem _ _ hti,
      List.getD_eq_getElem _ _ hi]
    norm_num [soft_update, softUpdateWith, List.getElem_zipWith]
  · have : softUpdateWith 1 net net_target =
        List.zipWith (fun _ p => p) net_target net := by
      unfold softUpdateWith
      congr 1
      funext a b
      ring
    rw [this, zipWith_snd_of_length_eq _ _ h.symm]
  · have : softUpdateWith 0 net net_target =
        List.zipWith (fun pt _ => pt) net_target net := by
      unfold softUpdateWith
      congr 1
      funext a b
      ring
    rw [this, zipWith_fst_of_length_eq _ _ h.symm]

/-- Witness for C4 at concrete parameter lists. -/
theorem soft_update_formula_witness :
    ([1, 2] : List ℝ).length = ([3, 4] : List ℝ).length ∧
    0 < ([1, 2] : List ℝ).length ∧
    ((soft_update [1, 2] [3, 4]).getD 0 0 =
       ([3, 4] : List ℝ).getD 0 0 * (1 - tau) + ([1, 2] : List ℝ).getD 0 0 * tau ∧
     softUpdateWith 1 [1, 2] [3, 4] = [1, 2] ∧
     softUpdateWith 0 [1, 2] [3, 4] = [3, 4]) := by
  have h : ([1, 2] : List ℝ).length = ([3, 4] : List ℝ).length := by simp
  have hi : 0 < ([1, 2] : List ℝ).length := by simp
  exact ⟨h, hi, soft_update_formula [1, 2] [3, 4] h 0 hi⟩

/-- C8: one `train_pi` step leaves the parameters of both online critics
unchanged; only the policy parameters are replaced. -/
theorem train_pi_preserves_critics
    (piStep : (PolicyNet → ℝ) → PolicyNet → PolicyNet) (st : SacState)
    (mini_batch : List Transition) (zs : List ℝ) :
    (train_pi piStep st mini_batch zs).q1 = st.q1 ∧
    (train_pi piStep st mini_batch zs).q2 = st.q2 :=
  ⟨rfl, rfl⟩

/-- The log-density of the standard normal distribution (mean 0, unit
variance) at `z`, written from the spec's words, for comparison with the
`log_prob` the code computes. -/
noncomputable def specStdNormalLogDensity (z : ℝ) : ℝ :=
  -(z ^ 2 / 2) - Real.log (Real.sqrt (2 * Real.pi))

/-- C5: the `log_prob` returned by `PolicyNet.forward` is the log-density of
the standard normal distribution evaluated at the drawn noise `z` (not the
log-density of the transformed, squashed action). -/
theorem log_prob_is_base_noise_density (p : PolicyNet) (x : Fin 3 → ℝ) (z : ℝ) :
    (p.forward x z).2 = specStdNormalLogDensity z := by
  show normalLogPdf 0 1 z = _
  unfold normalLogPdf specStdNormalLogDensity
  rw [Real.log_one]
  ring

/-- C10: for a fixed noise draw `z`, the `log_prob` returned by
`PolicyNet.forward` is identical across any two runs that differ in the input
state and/or in all policy parameters. -/
theorem log_prob_independent_of_state_and_params
    (p q : PolicyNet) (x y : Fin 3 → ℝ) (z : ℝ) :
    (p.forward x z).2 = (q.forward y z).2 :=
  rfl

/-- C3: for every sampled batch row whose transition is terminal
(continuation mask `0`), the target computed by `calc_target` equals exactly
the immediate reward `r` of that transition, for every next state, policy and
pair of target critics. -/
theorem terminal_target_equals_reward (pi : PolicyNet) (q1 q2 : QNet)
    (mini_batch : List Transition) (zs : List ℝ) (i : Nat) (tr : Transition)
    (z : ℝ) (htr : mini_batch[i]? = some tr) (hz : zs[i]? = some z)
    (hdone : tr.done = true) :
    (calc_target pi q1 q2 mini_batch zs)[i]? = some tr.r := by
  unfold calc_target
  refine List.getElem?_zipWith_eq_some.mpr ⟨tr, z, htr, hz, ?_⟩
  unfold calcTargetRow doneMask
  rw [hdone]
  norm_num

/-- Witness for C3: a singleton batch holding one terminal transition, with
all-zero networks. -/
theorem terminal_target_equals_reward_witness :
    ([(⟨fun _ => 0, 0, 5, fun _ => 9, true⟩ : Transition)][0]? =
      some (⟨fun _ => 0, 0, 5, fun _ => 9, true⟩ : Transition)) ∧
    (([0] : List ℝ)[0]? = some 0) ∧
    (⟨fun _ => 0, 0, 5, fun _ => 9, true⟩ : Transition).done = true ∧
    (calc_target ⟨fun _ _ => 0, fun _ => 0, fun _ => 0, 0, fun _ => 0, 0⟩
        ⟨fun _ _ => 0, fun _ => 0, fun _ => 0, fun _ => 0, fun _ _ => 0, fun _ => 0, fun _ => 0, 0⟩
        ⟨fun _ _ => 0, fun _ => 0, fun _ => 0, fun _ => 0, fun _ _ => 0, fun _ => 0, fun _ => 0, 0⟩
        [⟨fun _ => 0, 0, 5, fun _ => 9, true⟩] [0])[0]? =
      some (⟨fun _ => 0, 0, 5, fun _ => 9, true⟩ : Transition).r := by
  refine ⟨rfl, rfl, rfl, ?_⟩
  exact terminal_target_equals_reward _ _ _ _ _ 0 _ 0 rfl rfl rfl

/-! ### Bounds on tanh and the squashed action (C7) -/

lemma tanh_le_one (x : ℝ) : Real.tanh x ≤ 1 := by
  rw [Real.tanh_eq_sinh_div_cosh]
  exact le_of_lt ((div_lt_one (Real.cosh_pos x)).mpr (Real.sinh_lt_cosh x))

lemma neg_one_le_tanh (x : ℝ) : -1 ≤ Real.tanh x := by
  have h := tanh_le_one (-x)
  rw [Real.tanh_neg] at h
  linarith

/-- C7: for every input state, every parameter setting and every noise draw,
the action returned by `PolicyNet.forward` lies within `[-2.0, 2.0]`
(`action = 2.0 * tanh (mu + std * z)`). -/
theorem action_within_bounds (p : PolicyNet) (x : Fin 3 → ℝ) (z : ℝ) :
    -2 ≤ (p.forward x z).1 ∧ (p.forward x z).1 ≤ 2 := by
  obtain ⟨t, ht⟩ : ∃ t, (p.forward x z).1 = 2.0 * Real.tanh t := ⟨_, rfl⟩
  rw [ht]
  constructor
  · nlinarith [neg_one_le_tanh t]
  · nlinarith [tanh_le_one t]

/-! ### The actor loss evaluates the policy at the next state (C1)

The spec requires `train_pi` to recompute `(a_prime, log_prob)` from the
policy at the current states `s`; line 109 of the code evaluates `pi(s_prime)`
instead (while the critics at line 112 are evaluated at `(s, a_prime)`).
The concrete networks below witness the divergence: two batch rows that agree
on `s`, `a`, `r` and `done` yet differ in `s_prime` produce different actor
losses, which is impossible if the action in the loss comes from the policy
at `s`. -/

lemma relu_zero : relu 0 = 0 := max_self 0

lemma relu_of_nonneg {x : ℝ} (h : 0 ≤ x) : relu x = x := max_eq_left h

/-- Policy whose `fc1` and `fc_mu` weights are all one and whose biases and
`fc_std` weights are zero; its action head computes
`2 * tanh (128 * relu (∑ j, x j))` at noise `0`. -/
noncomputable def onesPolicy : PolicyNet :=
  ⟨fun _ _ => 1, fun _ => 0, fun _ => 1, 0, fun _ => 0, 0⟩

/-- Critic whose state branch is zero and whose action branch, concatenation
layer and output layer have unit weights: it computes
`32 * relu (64 * relu a)`, a strictly increasing function of `a` on `a ≥ 0`
that ignores the state input. -/
noncomputable def actionGainQ : QNet :=
  ⟨fun _ _ => 0, fun _ => 0, fun _ => 1, fun _ => 0, fun _ _ => 1, fun _ => 0,
   fun _ => 1, 0⟩

/-- Batch row with zero next state. -/
noncomputable def rowZero : Transition := ⟨fun _ => 0, 0, 0, fun _ => 0, false⟩

/-- Batch row equal to `rowZero` except in its next state. -/
noncomputable def rowOne : Transition := ⟨fun _ => 0, 0, 0, fun _ => 1, false⟩

lemma onesPolicy_action (x : Fin 3 → ℝ) :
    (onesPolicy.forward x 0).1 = 2.0 * Real.tanh (128 * relu (∑ j, x j)) := by
  unfold PolicyNet.forward onesPolicy
  norm_num [Finset.sum_const, Finset.card_univ, nsmul_eq_mul]

lemma sum_append_univ {m n : Nat} (u : Fin m → ℝ) (v : Fin n → ℝ) :
    ∑ j : Fin (m + n), Fin.append u v j = (∑ i, u i) + (∑ i, v i) := by
  rw [Fin.sum_univ_add]
  simp only [Fin.append_left, Fin.append_right]

lemma actionGainQ_forward (x : Fin 3 → ℝ) (a : ℝ) :
    actionGainQ.forward x a = 32 * relu (64 * relu a) := by
  unfold QNet.forward actionGainQ
  norm_num [sum_append_univ, relu_zero, Finset.sum_const, Finset.card_univ,
    nsmul_eq_mul]

lemma actorLossRow_eval (tr : Transition) (z : ℝ) :
    actorLossRow onesPolicy actionGainQ actionGainQ tr z =
      -(32 * relu (64 * relu ((onesPolicy.forward tr.s_prime z).1))) -
        (-alpha * (onesPolicy.forward tr.s_prime z).2) := by
  unfold actorLossRow
  simp only [actionGainQ_forward, min_self]

/-- C1 (code bug): the actor loss of `train_pi` obtains its action from the
policy evaluated at the *next* states `s_prime`, not at the current states
`s`: the two concrete batch rows `rowZero` and `rowOne` agree on `s`, `a`,
`r` and `done` and differ only in `s_prime`, yet their actor losses under
`onesPolicy` and twin critics `actionGainQ` differ. -/
theorem actor_loss_depends_on_next_state :
    rowZero.s = rowOne.s ∧ rowZero.a = rowOne.a ∧ rowZero.r = rowOne.r ∧
    rowZero.done = rowOne.done ∧
    actorLossRow onesPolicy actionGainQ actionGainQ rowZero 0 ≠
      actorLossRow onesPolicy actionGainQ actionGainQ rowOne 0 := by
  refine ⟨rfl, rfl, rfl, rfl, ?_⟩
  have htanh : 0 < Real.tanh 384 := by
    rw [Real.tanh_eq_sinh_div_cosh]
    exact div_pos (Real.sinh_pos_iff.mpr (by norm_num)) (Real.cosh_pos _)
  have ha0 : (onesPolicy.forward rowZero.s_prime 0).1 = 0 := by
    rw [onesPolicy_action]
    norm_num [rowZero, relu_zero, Real.tanh_zero]
  have ha1 : (onesPolicy.forward rowOne.s_prime 0).1 = 2.0 * Real.tanh 384 := by
    rw [onesPolicy_action]
    norm_num [rowOne, Finset.sum_const, Finset.card_univ, nsmul_eq_mul,
      relu_of_nonneg]
  rw [actorLossRow_eval, actorLossRow_eval, ha0, ha1]
  have h1 : relu (2.0 * Real.tanh 384) = 2.0 * Real.tanh 384 :=
    relu_of_nonneg (by nlinarith)
  have h2 : relu (64 * (2.0 * Real.tanh 384)) = 64 * (2.0 * Real.tanh 384) :=
    relu_of_nonneg (by nlinarith)
  rw [relu_zero, h1, h2]
  intro heq
  have he : (onesPolicy.forward rowZero.s_prime 0).2 =
      (onesPolicy.forward rowOne.s_prime 0).2 := rfl
  rw [he, mul_zero, relu_zero] at heq
  nlinarith [htanh]

end Sac
